import Mathlib

/-!
Shallow embedding of `src/Sources/EditLine/editline.c`, a facade over the
libedit line-editing engine.  The C file keeps two module-scoped pointers
(`editLine`, `historyInstance`) and exposes four operations: create,
readLine, reset, destroy.  The external engine (el_init, el_set, el_gets,
el_reset, el_end, history_init, history, history_end) is not part of the
repository; it is modelled behaviourally following the spec's section 4.2
and the documented libedit semantics.  Allocations are tracked in
association lists keyed by numeric ids, so that release and leakage are
observable, and every call from the facade into the engine is recorded in
a trace together with the handle argument the facade passed, so that
passing a null handle to the engine is observable.
-/

/-- A line of input: its bytes, modelled as characters. -/
abbrev Line := List Char

/-- The history sub-object: the capacity set by H_SETSIZE and the entries
in insertion order, oldest first. -/
structure Hist where
  capacity : Nat
  entries : List Line
deriving DecidableEq

/-- The editor sub-object created by el_init and configured by el_set:
the program tag, the installed prompt callback, the edit mode, the
attached history handle, and its terminal state (clean after el_reset). -/
structure Editor where
  progName : String
  promptFn : Option (Unit → String)
  editorMode : Option String
  histAttached : Option Nat
  termClean : Bool

/-- Which el_set operation the facade issued. -/
inductive SetOp where
  | setPrompt
  | setEditorMode (mode : String)
  | setHist (hist : Option Nat)
deriving DecidableEq

/-- One call from the facade into the engine, recording the handle the
facade passed (none models a NULL pointer argument). -/
inductive EngineCall where
  | elInit (tag : String) (ok : Bool)
  | elSet (handle : Option Nat) (op : SetOp)
  | elGets (handle : Option Nat) (promptShown : Option String)
  | elReset (handle : Option Nat)
  | elEnd (handle : Option Nat)
  | historyInit (ok : Bool)
  | histSetSize (handle : Option Nat) (size : Nat)
  | histEnter (handle : Option Nat) (line : Line)
  | histEnd (handle : Option Nat)
deriving DecidableEq

/-- The observable state: the two static pointers of editline.c, the live
allocations of each kind, a fresh-id counter, and the engine call trace. -/
structure FacadeState where
  editLine : Option Nat
  historyInstance : Option Nat
  editors : List (Nat × Editor)
  histories : List (Nat × Hist)
  nextId : Nat
  trace : List EngineCall

/-- Look an id up in an allocation list. -/
def lookupA {α : Type} : List (Nat × α) → Nat → Option α
  | [], _ => none
  | (k, v) :: rest, id => if k = id then some v else lookupA rest id

/-- Apply `f` to the allocation with the given id. -/
def updateA {α : Type} : List (Nat × α) → Nat → (α → α) → List (Nat × α)
  | [], _, _ => []
  | (k, v) :: rest, id, f =>
    (if k = id then (k, f v) else (k, v)) :: updateA rest id f

/-- Release the allocation with the given id. -/
def removeA {α : Type} : List (Nat × α) → Nat → List (Nat × α)
  | [], _ => []
  | (k, v) :: rest, id =>
    if k = id then removeA rest id else (k, v) :: removeA rest id

/-- The static prompt callback of editline.c (lines 10-12): always
returns the fixed string. -/
def prompt (_e : Unit) : String := "> "

/-- Model of el_init (spec section 4.2): allocate a fresh editor bound to
the standard streams; whether the allocation succeeds is an explicit
parameter, and the resulting handle is none on failure (a NULL return). -/
def el_init (tag : String) (ok : Bool) (s : FacadeState) : Option Nat × FacadeState :=
  let s := { s with trace := s.trace ++ [EngineCall.elInit tag ok] }
  if ok then
    (some s.nextId,
      { s with
        editors := (s.nextId, ⟨tag, none, none, none, true⟩) :: s.editors,
        nextId := s.nextId + 1 })
  else (none, s)

/-- Model of el_set(handle, EL_PROMPT, f): install the prompt callback.
The facade passes the handle unchecked; with a NULL handle the engine is
still called (recorded in the trace) and no state change is modelled. -/
def el_set_prompt_fn (handle : Option Nat) (f : Unit → String) (s : FacadeState) : FacadeState :=
  let s := { s with trace := s.trace ++ [EngineCall.elSet handle SetOp.setPrompt] }
  match handle with
  | some id => { s with editors := updateA s.editors id fun e => { e with promptFn := some f } }
  | none => s

/-- Model of el_set(handle, EL_EDITOR, mode): set the edit mode. -/
def el_set_editor_mode (handle : Option Nat) (mode : String) (s : FacadeState) : FacadeState :=
  let s := { s with trace := s.trace ++ [EngineCall.elSet handle (SetOp.setEditorMode mode)] }
  match handle with
  | some id => { s with editors := updateA s.editors id fun e => { e with editorMode := some mode } }
  | none => s

/-- Model of el_set(handle, EL_HIST, history, h): attach the history. -/
def el_set_hist (handle : Option Nat) (h : Option Nat) (s : FacadeState) : FacadeState :=
  let s := { s with trace := s.trace ++ [EngineCall.elSet handle (SetOp.setHist h)] }
  match handle with
  | some id => { s with editors := updateA s.editors id fun e => { e with histAttached := h } }
  | none => s

/-- Model of el_reset(handle): reinitialize the editor's terminal state. -/
def el_reset (handle : Option Nat) (s : FacadeState) : FacadeState :=
  let s := { s with trace := s.trace ++ [EngineCall.elReset handle] }
  match handle with
  | some id => { s with editors := updateA s.editors id fun e => { e with termClean := true } }
  | none => s

/-- Model of el_end(handle): release the editor. -/
def el_end (handle : Option Nat) (s : FacadeState) : FacadeState :=
  let s := { s with trace := s.trace ++ [EngineCall.elEnd handle] }
  match handle with
  | some id => { s with editors := removeA s.editors id }
  | none => s

/-- Model of history_init (spec section 4.2): allocate a fresh empty
history; allocation success is an explicit parameter. -/
def history_init (ok : Bool) (s : FacadeState) : Option Nat × FacadeState :=
  let s := { s with trace := s.trace ++ [EngineCall.historyInit ok] }
  if ok then
    (some s.nextId,
      { s with
        histories := (s.nextId, ⟨0, []⟩) :: s.histories,
        nextId := s.nextId + 1 })
  else (none, s)

/-- Model of history(handle, ev, H_SETSIZE, n): set the capacity. -/
def history_setsize (handle : Option Nat) (n : Nat) (s : FacadeState) : FacadeState :=
  let s := { s with trace := s.trace ++ [EngineCall.histSetSize handle n] }
  match handle with
  | some id => { s with histories := updateA s.histories id fun h => { h with capacity := n } }
  | none => s

/-- Pure H_ENTER semantics (spec section 3 and 4.2): append the line as a
single entry; when the history is full, evict the oldest entry first. -/
def histEnter (h : Hist) (l : Line) : Hist :=
  if h.entries.length < h.capacity then { h with entries := h.entries ++ [l] }
  else { h with entries := h.entries.tail ++ [l] }

/-- Model of history(handle, ev, H_ENTER, line): append an entry.  The
engine's int result code is returned (negative on a NULL handle) and it
is up to the caller to inspect it. -/
def history_enter (handle : Option Nat) (l : Line) (s : FacadeState) : Int × FacadeState :=
  let s := { s with trace := s.trace ++ [EngineCall.histEnter handle l] }
  match handle with
  | some id => (0, { s with histories := updateA s.histories id fun h => histEnter h l })
  | none => (-1, s)

/-- Model of history_end(handle): release the history. -/
def history_end (handle : Option Nat) (s : FacadeState) : FacadeState :=
  let s := { s with trace := s.trace ++ [EngineCall.histEnd handle] }
  match handle with
  | some id => { s with histories := removeA s.histories id }
  | none => s

/-- The prompt string the engine obtains for a handle by invoking the
installed callback (spec section 4.2: the engine calls the prompt hook at
the start of each line). -/
def shownPrompt (handle : Option Nat) (s : FacadeState) : Option String :=
  (handle.bind (lookupA s.editors)).bind fun e => e.promptFn.map fun f => f ()

/-- Record the el_gets call itself: the engine is entered with the given
handle and displays the prompt obtained from the installed callback. -/
def el_gets_record (handle : Option Nat) (s : FacadeState) : FacadeState :=
  { s with trace := s.trace ++ [EngineCall.elGets handle (shownPrompt handle s)] }

/-- lineEditorCreate, editline.c lines 14-22, translated line by line;
the allocation outcomes of el_init and history_init are parameters. -/
def lineEditorCreate (elOk histOk : Bool) (s : FacadeState) : FacadeState :=
  let r := el_init "command" elOk s
  let s := { r.2 with editLine := r.1 }
  let s := el_set_prompt_fn s.editLine prompt s
  let s := el_set_editor_mode s.editLine "emacs" s
  let r := history_init histOk s
  let s := { r.2 with historyInstance := r.1 }
  let s := history_setsize s.historyInstance 800 s
  el_set_hist s.editLine s.historyInstance s

/-- lineEditorDestroy, editline.c lines 24-35: end the history if the
pointer is non-null and clear it; then reset, end and clear the editor if
its pointer is non-null. -/
def lineEditorDestroy (s : FacadeState) : FacadeState :=
  let s :=
    match s.historyInstance with
    | some id =>
      let s := history_end (some id) s
      { s with historyInstance := none }
    | none => s
  match s.editLine with
  | some id =>
    let s := el_reset (some id) s
    let s := el_end (some id) s
    { s with editLine := none }
  | none => s

/-- lineEditorReadLine, editline.c lines 37-52.  The el_gets result (the
line pointer and the byte count written through the out-parameter) is
passed in; the count check, the first-byte test and the history append
mirror the C.  With count positive but a null line the C would read
line[0] out of a null pointer; that branch is unreachable under the
engine contract of spec section 4.2 (a positive count signals a committed
line) and is modelled as returning none. -/
def lineEditorReadLine (line : Option Line) (count : Int) (s : FacadeState) :
    Option Line × FacadeState :=
  let s := el_gets_record s.editLine s
  if count ≤ 0 then
    (none, s)
  else
    match line with
    | some l =>
      if l.head? = some '\n' then (some l, s)
      else (some l, (history_enter s.historyInstance l s).2)
    | none => (none, s)

/-- lineEditorReset, editline.c lines 54-56: a single unchecked el_reset
on the stored handle. -/
def lineEditorReset (s : FacadeState) : FacadeState :=
  el_reset s.editLine s

/-- The process start state: both static pointers NULL, nothing
allocated. -/
def initState : FacadeState := ⟨none, none, [], [], 0, []⟩

/-- The engine contract for el_gets (spec section 4.2): a positive byte
count signals a committed line of that many bytes. -/
def EngineOkGets (line : Option Line) (count : Int) : Prop :=
  0 < count → ∃ l, line = some l ∧ l.length = count.toNat

theorem lookup_cons_ne {α : Type} (k id : Nat) (v : α) (l : List (Nat × α)) (h : k ≠ id) :
    lookupA ((k, v) :: l) id = lookupA l id := by
  simp [lookupA, h]

theorem lookup_update_ne {α : Type} (l : List (Nat × α)) (k id : Nat) (f : α → α)
    (h : id ≠ k) : lookupA (updateA l k f) id = lookupA l id := by
  induction l with
  | nil => rfl
  | cons a rest ih =>
    obtain ⟨ka, va⟩ := a
    simp only [updateA]
    split
    · next hak =>
      have hki : ¬ (ka = id) := fun hh => h (by rw [← hh]; exact hak)
      simp [lookupA, hki, ih]
    · next hak =>
      by_cases hki : ka = id <;> simp [lookupA, hki, ih]

theorem lookup_update_self {α : Type} (l : List (Nat × α)) (k : Nat) (f : α → α) :
    lookupA (updateA l k f) k = (lookupA l k).map f := by
  induction l with
  | nil => rfl
  | cons a rest ih =>
    obtain ⟨ka, va⟩ := a
    simp only [updateA]
    split
    · next hak => subst hak; simp [lookupA, ih]
    · next hak => simp [lookupA, hak, ih]

theorem lookup_remove_self {α : Type} (l : List (Nat × α)) (k : Nat) :
    lookupA (removeA l k) k = none := by
  induction l with
  | nil => rfl
  | cons a rest ih =>
    obtain ⟨ka, va⟩ := a
    simp only [removeA]
    split
    · exact ih
    · next hak => simp [lookupA, hak, ih]

@[simp] theorem el_gets_record_editLine (h : Option Nat) (s : FacadeState) :
    (el_gets_record h s).editLine = s.editLine := rfl

@[simp] theorem el_gets_record_historyInstance (h : Option Nat) (s : FacadeState) :
    (el_gets_record h s).historyInstance = s.historyInstance := rfl

@[simp] theorem el_gets_record_editors (h : Option Nat) (s : FacadeState) :
    (el_gets_record h s).editors = s.editors := rfl

@[simp] theorem el_gets_record_histories (h : Option Nat) (s : FacadeState) :
    (el_gets_record h s).histories = s.histories := rfl

@[simp] theorem el_gets_record_trace (h : Option Nat) (s : FacadeState) :
    (el_gets_record h s).trace = s.trace ++ [EngineCall.elGets h (shownPrompt h s)] := rfl

theorem readLine_fst (line : Option Line) (count : Int) (s : FacadeState) :
    (lineEditorReadLine line count s).1 = if count ≤ 0 then none else line := by
  unfold lineEditorReadLine
  by_cases hc : count ≤ 0
  · simp [hc]
  · cases line with
    | none => simp [hc]
    | some l => by_cases hl : l.head? = some '\n' <;> simp [hc, hl]

theorem readLine_snd_of_pos (l : Line) (count : Int) (s : FacadeState) (hc : 0 < count) :
    (lineEditorReadLine (some l) count s).2 =
      (if l.head? = some '\n' then el_gets_record s.editLine s
       else (history_enter s.historyInstance l (el_gets_record s.editLine s)).2) := by
  unfold lineEditorReadLine
  have hcn : ¬ count ≤ 0 := not_le.mpr hc
  by_cases hl : l.head? = some '\n' <;> simp [hcn, hl]

@[simp] theorem histEnter_entries (h : Hist) (l : Line) :
    (histEnter h l).entries =
      (if h.entries.length < h.capacity then h.entries else h.entries.tail) ++ [l] := by
  unfold histEnter
  split <;> rfl

@[simp] theorem histEnter_capacity (h : Hist) (l : Line) :
    (histEnter h l).capacity = h.capacity := by
  unfold histEnter
  split <;> rfl

@[simp] theorem shownPrompt_none (s : FacadeState) : shownPrompt none s = none := rfl

/-- Claim C1: for a readLine that returns a non-null line (positive byte
count), the line is appended to History as a single entry exactly when
its first byte is not the newline character; when the first byte is a
newline, History is untouched and its length is unchanged. -/
theorem readLine_append_iff_first_byte (c : Char) (cs : List Char) (count : Int)
    (s : FacadeState) (id : Nat) (h : Hist) (hcount : 0 < count)
    (hid : s.historyInstance = some id) (hh : lookupA s.histories id = some h) :
    ∃ h', lookupA (lineEditorReadLine (some (c :: cs)) count s).2.histories id = some h'
      ∧ (c = '\n' → h' = h)
      ∧ (c ≠ '\n' → h'.entries =
          (if h.entries.length < h.capacity then h.entries else h.entries.tail) ++ [c :: cs])
      ∧ (c = '\n' → h'.entries.length = h.entries.length) := by
  rw [readLine_snd_of_pos _ _ _ hcount]
  by_cases hc : c = '\n'
  · refine ⟨h, ?_, fun _ => rfl, fun hne => absurd hc hne, fun _ => rfl⟩
    rw [if_pos (by simp [hc])]
    simpa using hh
  · refine ⟨histEnter h (c :: cs), ?_, fun he => absurd he hc,
      fun _ => histEnter_entries h (c :: cs), fun he => absurd he hc⟩
    rw [if_neg (by simp [hc])]
    simp [history_enter, hid, lookup_update_self, hh]

/-- Witness for C1 at a concrete input: reading the line "hi\n" in a
freshly created state appends it to the history. -/
theorem readLine_append_iff_first_byte_witness :
    ∃ h', lookupA (lineEditorReadLine (some ('h' :: ['i', '\n'])) 3
        (lineEditorCreate true true initState)).2.histories 1 = some h'
      ∧ ('h' = '\n' → h' = (⟨800, []⟩ : Hist))
      ∧ ('h' ≠ '\n' → h'.entries =
          (if (Hist.mk 800 []).entries.length < (Hist.mk 800 []).capacity
           then (Hist.mk 800 []).entries else (Hist.mk 800 []).entries.tail)
            ++ ['h' :: ['i', '\n']])
      ∧ ('h' = '\n' → h'.entries.length = (Hist.mk 800 []).entries.length) :=
  readLine_append_iff_first_byte 'h' ['i', '\n'] 3 (lineEditorCreate true true initState) 1
    ⟨800, []⟩ (by decide) rfl rfl

/-- Claim C2: readLine returns none exactly when the engine's byte count
is nonpositive; in that case History (both the pointer and the
allocations) is unchanged, and with a positive count the committed line
itself is returned, non-null. -/
theorem readLine_none_iff_count_nonpos (line : Option Line) (count : Int) (s : FacadeState)
    (hok : EngineOkGets line count) :
    ((lineEditorReadLine line count s).1 = none ↔ count ≤ 0)
    ∧ (count ≤ 0 →
        (lineEditorReadLine line count s).2.histories = s.histories
        ∧ (lineEditorReadLine line count s).2.historyInstance = s.historyInstance)
    ∧ (0 < count → ∃ l, line = some l ∧ (lineEditorReadLine line count s).1 = some l) := by
  refine ⟨?_, fun hc => ?_, fun hc => ?_⟩
  · rw [readLine_fst]
    by_cases hc : count ≤ 0
    · simp [hc]
    · obtain ⟨l, hl, _⟩ := hok (not_le.mp hc)
      simp [hc, hl]
  · constructor <;> simp [lineEditorReadLine, hc]
  · obtain ⟨l, hl, _⟩ := hok hc
    refine ⟨l, hl, ?_⟩
    rw [readLine_fst, if_neg (not_le.mpr hc), hl]

/-- Witness for C2 at a concrete input: count 2 with line "a\n". -/
theorem readLine_none_iff_count_nonpos_witness :
    ((lineEditorReadLine (some ['a', '\n']) 2 initState).1 = none ↔ (2 : Int) ≤ 0)
    ∧ ((2 : Int) ≤ 0 →
        (lineEditorReadLine (some ['a', '\n']) 2 initState).2.histories = initState.histories
        ∧ (lineEditorReadLine (some ['a', '\n']) 2 initState).2.historyInstance
            = initState.historyInstance)
    ∧ ((0 : Int) < 2 → ∃ l, (some ['a', '\n'] : Option Line) = some l
        ∧ (lineEditorReadLine (some ['a', '\n']) 2 initState).1 = some l) :=
  readLine_none_iff_count_nonpos (some ['a', '\n']) 2 initState
    (fun _ => ⟨['a', '\n'], rfl, rfl⟩)

/-- Claim C10: the value readLine returns is determined by the el_gets
result alone; the history append's result code is discarded, so the same
line view comes back whatever the append did, in particular for any two
states (one where the append succeeds, one where it fails). -/
theorem readLine_result_independent_of_append (line : Option Line) (count : Int)
    (s t : FacadeState) :
    (lineEditorReadLine line count s).1 = (if count ≤ 0 then none else line)
    ∧ (lineEditorReadLine line count s).1 = (lineEditorReadLine line count t).1 :=
  ⟨readLine_fst line count s, by rw [readLine_fst, readLine_fst]⟩

/-- Claim C3: History capacity is the hard bound 800 installed by create
(H_SETSIZE 800), with FIFO eviction: a readLine that appends (first byte
not a newline) leaves the history length at min(previous length + 1, 800),
and when the previous length was 800 the oldest (first) entry is evicted. -/
theorem history_capacity_800_fifo (s : FacadeState) (id : Nat) (h : Hist) (c : Char)
    (cs : List Char) (count : Int)
    (hid : s.historyInstance = some id) (hh : lookupA s.histories id = some h)
    (hcap : h.capacity = 800) (hlen : h.entries.length ≤ 800)
    (hcount : 0 < count) (hc : c ≠ '\n') :
    (∃ h', lookupA (lineEditorReadLine (some (c :: cs)) count s).2.histories id = some h'
      ∧ h'.entries.length = min (h.entries.length + 1) 800
      ∧ (h.entries.length = 800 → h'.entries = h.entries.tail ++ [c :: cs]))
    ∧ lookupA (lineEditorCreate true true initState).histories 1 = some ⟨800, []⟩ := by
  refine ⟨?_, rfl⟩
  rw [readLine_snd_of_pos _ _ _ hcount, if_neg (by simp [hc])]
  refine ⟨histEnter h (c :: cs), ?_, ?_, fun hfull => ?_⟩
  · simp [history_enter, hid, lookup_update_self, hh]
  · rw [histEnter_entries]
    by_cases hfull : h.entries.length < h.capacity
    · rw [if_pos hfull]
      simp only [List.length_append, List.length_singleton]
      omega
    · rw [if_neg hfull]
      simp only [List.length_append, List.length_singleton, List.length_tail]
      omega
  · rw [histEnter_entries, if_neg (by omega)]

/-- Witness for C3 at a concrete input: appending "x\n" to the freshly
created empty history of capacity 800. -/
theorem history_capacity_800_fifo_witness :
    (∃ h', lookupA (lineEditorReadLine (some ('x' :: ['\n'])) 2
        (lineEditorCreate true true initState)).2.histories 1 = some h'
      ∧ h'.entries.length = min ((Hist.mk 800 []).entries.length + 1) 800
      ∧ ((Hist.mk 800 []).entries.length = 800 →
          h'.entries = (Hist.mk 800 []).entries.tail ++ ['x' :: ['\n']]))
    ∧ lookupA (lineEditorCreate true true initState).histories 1 = some ⟨800, []⟩ :=
  history_capacity_800_fifo (lineEditorCreate true true initState) 1 ⟨800, []⟩ 'x' ['\n'] 2
    rfl rfl rfl (by decide) (by decide) (by decide)

/-- Claim C4: destroy is idempotent: on the Absent state it is a no-op,
destroy after destroy has the same effect as one destroy, and after any
destroy both holders are cleared and the held Editor and History are
released from the allocation maps. -/
theorem destroy_idempotent :
    (∀ s : FacadeState, s.editLine = none → s.historyInstance = none →
        lineEditorDestroy s = s)
    ∧ (∀ s : FacadeState, lineEditorDestroy (lineEditorDestroy s) = lineEditorDestroy s)
    ∧ (∀ s : FacadeState,
        (lineEditorDestroy s).editLine = none ∧ (lineEditorDestroy s).historyInstance = none)
    ∧ (∀ (s : FacadeState) (id : Nat), s.historyInstance = some id →
        lookupA (lineEditorDestroy s).histories id = none)
    ∧ (∀ (s : FacadeState) (id : Nat), s.editLine = some id →
        lookupA (lineEditorDestroy s).editors id = none) := by
  have habs : ∀ s : FacadeState, s.editLine = none → s.historyInstance = none →
      lineEditorDestroy s = s := by
    intro s hE hH
    simp [lineEditorDestroy, hE, hH]
  have hfields : ∀ s : FacadeState,
      (lineEditorDestroy s).editLine = none ∧ (lineEditorDestroy s).historyInstance = none := by
    intro s
    unfold lineEditorDestroy
    rcases hH : s.historyInstance with _ | j <;> rcases hE : s.editLine with _ | i <;>
      simp [hH, hE, history_end, el_reset, el_end]
  refine ⟨habs, fun s => habs _ (hfields _).1 (hfields _).2, hfields, ?_, ?_⟩
  · intro s id hH
    unfold lineEditorDestroy
    rcases hE : s.editLine with _ | i <;>
      simp [hH, hE, history_end, el_reset, el_end, lookup_remove_self]
  · intro s id hE
    unfold lineEditorDestroy
    rcases hH : s.historyInstance with _ | j <;>
      simp [hH, hE, history_end, el_reset, el_end, lookup_remove_self]

/-- Witness for C4 at concrete inputs: destroy on the start state is a
no-op, and after create-then-destroy both sub-objects are released. -/
theorem destroy_idempotent_witness :
    lineEditorDestroy initState = initState
    ∧ lookupA (lineEditorDestroy (lineEditorCreate true true initState)).histories 1 = none
    ∧ lookupA (lineEditorDestroy (lineEditorCreate true true initState)).editors 0 = none :=
  ⟨destroy_idempotent.1 initState rfl rfl,
   destroy_idempotent.2.2.2.1 (lineEditorCreate true true initState) 1 rfl,
   destroy_idempotent.2.2.2.2 (lineEditorCreate true true initState) 0 rfl⟩

/-- Counterexample to C5: when el_init fails but history_init succeeds,
create raises no error and leaves partial state observable: the History
is allocated, installed in the holder and sized, while the Editor holder
is null; symmetrically when history_init fails the Editor stays
installed.  The singleton does not remain Absent and nothing is
released. -/
theorem create_alloc_failure_cex :
    ((lineEditorCreate false true initState).historyInstance = some 0
      ∧ lookupA (lineEditorCreate false true initState).histories 0 = some ⟨800, []⟩
      ∧ (lineEditorCreate false true initState).editLine = none)
    ∧ ((lineEditorCreate true false initState).editLine = some 0
      ∧ (lookupA (lineEditorCreate true false initState).editors 0).isSome = true
      ∧ (lineEditorCreate true false initState).historyInstance = none) :=
  ⟨⟨rfl, rfl, rfl⟩, ⟨rfl, rfl, rfl⟩⟩

/-- Claim C5 as amended: create performs no allocation-failure handling:
whichever sub-object allocation fails, no error is surfaced and nothing
is released; the failed holder is simply null while a successfully
allocated sub-object remains allocated and installed (observable partial
state). -/
theorem create_no_failure_handling (elOk histOk : Bool) :
    ((lineEditorCreate elOk histOk initState).editLine = if elOk then some 0 else none)
    ∧ ((lineEditorCreate elOk histOk initState).historyInstance =
        if histOk then some (if elOk then 1 else 0) else none)
    ∧ (histOk = true →
        lookupA (lineEditorCreate elOk histOk initState).histories (if elOk then 1 else 0)
          = some ⟨800, []⟩)
    ∧ (elOk = true →
        (lookupA (lineEditorCreate elOk histOk initState).editors 0).isSome = true) := by
  cases elOk <;> cases histOk
  · exact ⟨rfl, rfl, fun hh => Bool.noConfusion hh, fun he => Bool.noConfusion he⟩
  · exact ⟨rfl, rfl, fun _ => rfl, fun he => Bool.noConfusion he⟩
  · exact ⟨rfl, rfl, fun hh => Bool.noConfusion hh, fun _ => rfl⟩
  · exact ⟨rfl, rfl, fun _ => rfl, fun _ => rfl⟩

/-- Witness for the amended C5: with a failed Editor allocation the
History nevertheless ends up allocated with capacity 800. -/
theorem create_no_failure_handling_witness :
    lookupA (lineEditorCreate false true initState).histories 0 = some ⟨800, []⟩ :=
  (create_no_failure_handling false true).2.2.1 rfl

/-- Counterexample to C6: after create on an already-live state, the
previous Editor (id 0) and History (id 1) are still present in the
allocation maps, so the replaced instance was not released. -/
theorem create_twice_leaks_cex :
    (lineEditorCreate true true (lineEditorCreate true true initState)).historyInstance = some 3
    ∧ lookupA (lineEditorCreate true true (lineEditorCreate true true initState)).histories 1
        = some ⟨800, []⟩
    ∧ (lookupA (lineEditorCreate true true (lineEditorCreate true true initState)).editors 0).isSome
        = true :=
  ⟨rfl, rfl, rfl⟩

/-- Claim C6 as amended: calling create again while an instance is live
never fails; it silently replaces the previous instance in both holders
but does not release it: the previous Editor and History stay in the
allocation maps unchanged (they are leaked). -/
theorem create_live_replaces_and_leaks (s : FacadeState) (idE idH : Nat)
    (_hE : s.editLine = some idE) (_hH : s.historyInstance = some idH)
    (hne : idE ≠ s.nextId) (hnh : idH ≠ s.nextId + 1) :
    (lineEditorCreate true true s).editLine = some s.nextId
    ∧ (lineEditorCreate true true s).historyInstance = some (s.nextId + 1)
    ∧ lookupA (lineEditorCreate true true s).editors idE = lookupA s.editors idE
    ∧ lookupA (lineEditorCreate true true s).histories idH = lookupA s.histories idH := by
  have hne' : s.nextId ≠ idE := Ne.symm hne
  have hnh' : s.nextId + 1 ≠ idH := Ne.symm hnh
  refine ⟨rfl, rfl, ?_, ?_⟩
  · show lookupA (updateA (updateA (updateA
        ((s.nextId, (⟨"command", none, none, none, true⟩ : Editor)) :: s.editors)
        s.nextId fun e => { e with promptFn := some prompt })
        s.nextId fun e => { e with editorMode := some "emacs" })
        s.nextId fun e => { e with histAttached := some (s.nextId + 1) }) idE
      = lookupA s.editors idE
    rw [lookup_update_ne _ _ _ _ hne, lookup_update_ne _ _ _ _ hne,
      lookup_update_ne _ _ _ _ hne, lookup_cons_ne _ _ _ _ hne']
  · show lookupA (updateA ((s.nextId + 1, (⟨0, []⟩ : Hist)) :: s.histories)
        (s.nextId + 1) fun h => { h with capacity := 800 }) idH
      = lookupA s.histories idH
    rw [lookup_update_ne _ _ _ _ hnh, lookup_cons_ne _ _ _ _ hnh']

/-- Witness for the amended C6: the second create on a live singleton
installs fresh ids 2 and 3 while leaving the old allocations 0 and 1
untouched in the maps. -/
theorem create_live_replaces_and_leaks_witness :
    (lineEditorCreate true true (lineEditorCreate true true initState)).editLine = some 2
    ∧ (lineEditorCreate true true (lineEditorCreate true true initState)).historyInstance = some 3
    ∧ lookupA (lineEditorCreate true true (lineEditorCreate true true initState)).editors 0
        = lookupA (lineEditorCreate true true initState).editors 0
    ∧ lookupA (lineEditorCreate true true (lineEditorCreate true true initState)).histories 1
        = lookupA (lineEditorCreate true true initState).histories 1 :=
  create_live_replaces_and_leaks (lineEditorCreate true true initState) 0 1 rfl rfl
    (by decide) (by decide)

/-- Claim C7: reset reinitializes only the Editor's terminal state; the
History pointer, the history allocations (hence all history contents) and
the editor holder are unchanged, and the only editor change is the
terminal-state reinitialization of the held editor. -/
theorem reset_preserves_history (s : FacadeState) :
    (lineEditorReset s).histories = s.histories
    ∧ (lineEditorReset s).historyInstance = s.historyInstance
    ∧ (lineEditorReset s).editLine = s.editLine
    ∧ ∀ id : Nat, s.editLine = some id →
        (lineEditorReset s).editors
          = updateA s.editors id fun e => { e with termClean := true } := by
  unfold lineEditorReset el_reset
  cases hE : s.editLine with
  | none => simp [hE]
  | some i =>
    refine ⟨rfl, rfl, by simp [hE], ?_⟩
    intro id hid
    injection hid with hii
    subst hii
    rfl

/-- Witness for C7 at a concrete input: reset on a freshly created state
leaves the histories untouched and only reinitializes editor 0. -/
theorem reset_preserves_history_witness :
    (lineEditorReset (lineEditorCreate true true initState)).histories
        = (lineEditorCreate true true initState).histories
    ∧ (lineEditorReset (lineEditorCreate true true initState)).editors
        = updateA (lineEditorCreate true true initState).editors 0
            fun e => { e with termClean := true } :=
  ⟨(reset_preserves_history (lineEditorCreate true true initState)).1,
   (reset_preserves_history (lineEditorCreate true true initState)).2.2.2 0 rfl⟩

/-- Claim C8: the prompt callback installed by create is the static
`prompt`, which always returns the fixed two-byte string "> "
(greater-than, space); consequently the prompt the engine obtains at
each readLine in the created state is exactly "> ", as recorded on every
el_gets event. -/
theorem prompt_fixed_two_bytes :
    (∀ u : Unit, prompt u = "> ")
    ∧ "> ".data = ['>', ' ']
    ∧ (∃ e, lookupA (lineEditorCreate true true initState).editors 0 = some e
        ∧ e.promptFn = some prompt)
    ∧ shownPrompt (lineEditorCreate true true initState).editLine
        (lineEditorCreate true true initState) = some "> "
    ∧ ∀ (line : Option Line) (count : Int), ∃ rest,
        (lineEditorReadLine line count (lineEditorCreate true true initState)).2.trace
          = (lineEditorCreate true true initState).trace
            ++ EngineCall.elGets (some 0) (some "> ") :: rest := by
  have hE0 : (lineEditorCreate true true initState).editLine = some 0 := rfl
  have hsp : shownPrompt (some 0) (lineEditorCreate true true initState) = some "> " := rfl
  have hH1 : (lineEditorCreate true true initState).historyInstance = some 1 := rfl
  refine ⟨fun _ => rfl, rfl, ⟨_, rfl, rfl⟩, rfl, ?_⟩
  intro line count
  unfold lineEditorReadLine
  by_cases hc : count ≤ 0
  · exact ⟨[], by simp [hc, hE0, hsp]⟩
  · cases line with
    | none => exact ⟨[], by simp [hc, hE0, hsp]⟩
    | some l =>
      by_cases hl : l.head? = some '\n'
      · exact ⟨[], by simp [hc, hl, hE0, hsp]⟩
      · exact ⟨[EngineCall.histEnter (some 1) l],
          by simp [hc, hl, hE0, hsp, hH1, history_enter]⟩

/-- Claim C9: in the Absent state the facade guards destroy (no engine
call is made) but not reset or readLine: both pass the null Editor
handle straight to the engine, as their recorded engine calls show. -/
theorem absent_state_unguarded (s : FacadeState) (hE : s.editLine = none) :
    (lineEditorReset s).trace = s.trace ++ [EngineCall.elReset none]
    ∧ (∀ (line : Option Line) (count : Int), ∃ rest,
        (lineEditorReadLine line count s).2.trace
          = s.trace ++ EngineCall.elGets none none :: rest)
    ∧ (s.historyInstance = none → lineEditorDestroy s = s) := by
  refine ⟨?_, ?_, fun hH => by simp [lineEditorDestroy, hE, hH]⟩
  · unfold lineEditorReset el_reset
    rw [hE]
  · intro line count
    unfold lineEditorReadLine
    rw [hE]
    by_cases hc : count ≤ 0
    · exact ⟨[], by simp [hc]⟩
    · cases line with
      | none => exact ⟨[], by simp [hc]⟩
      | some l =>
        by_cases hl : l.head? = some '\n'
        · exact ⟨[], by simp [hc, hl]⟩
        · cases hH : s.historyInstance with
          | none =>
            exact ⟨[EngineCall.histEnter none l], by simp [hc, hl, hH, history_enter]⟩
          | some j =>
            exact ⟨[EngineCall.histEnter (some j) l], by simp [hc, hl, hH, history_enter]⟩

/-- Witness for C9 at a concrete input: the start state is Absent, and
reset and readLine there hand the engine a null handle while destroy
makes no engine call. -/
theorem absent_state_unguarded_witness :
    (lineEditorReset initState).trace = initState.trace ++ [EngineCall.elReset none]
    ∧ (∀ (line : Option Line) (count : Int), ∃ rest,
        (lineEditorReadLine line count initState).2.trace
          = initState.trace ++ EngineCall.elGets none none :: rest)
    ∧ (initState.historyInstance = none → lineEditorDestroy initState = initState) :=
  absent_state_unguarded initState rfl
